import Mathlib

/-!
Shallow embedding of the simulation core of `src/src/main.rs` (a minimal
Bevy rail-shooter).  The `f32` arithmetic of the source is modelled with
exact rationals `ℚ`; every constant and every per-tick system
(`move_road`, `decode_move`, `move_player`, `move_enemies`, `shoot`,
`move_bullet`) is translated directly from the source.  Entity queries are
modelled as lists, despawn commands as marks in the returned records
(destruction is buffered in the source, so within a tick a despawn is just
a recorded command).
-/

namespace Fakegame

/-- length of each road segment (`static LEN_SEG: f32 = 1.8`). -/
def LEN_SEG : ℚ := 9/5

/-- how fast the road moves forward, m/s (`static ROAD_VEL: f32 = 1.0`). -/
def ROAD_VEL : ℚ := 1

/-- player speed (`static PLAYER_VEL: f32 = 1.0`). -/
def PLAYER_VEL : ℚ := 1

/-- gun cooldown in seconds (`static PLAYER_GUN_PERIOD: f32 = 0.5`). -/
def PLAYER_GUN_PERIOD : ℚ := 1/2

/-- bullet speed (`static BULLET_VEL: f32 = 50.0`). -/
def BULLET_VEL : ℚ := 50

/-- enemy cube edge (`static ENEMY_SIZE: f32 = 0.3`). -/
def ENEMY_SIZE : ℚ := 3/10

/-- enemy speed (`static ENEMY_VEL: f32 = 0.5`). -/
def ENEMY_VEL : ℚ := 1/2

/-- the (x, z) part of a `Transform`'s translation; y is never touched by
the simulation core. -/
structure Pos where
  x : ℚ
  z : ℚ
deriving DecidableEq, Repr

/-- truncation toward zero, as used by Rust's `%` on floats
(`a % b = a - b * trunc (a / b)`, remainder sign follows the dividend). -/
def ratTrunc (q : ℚ) : ℤ :=
  if 0 ≤ q then ⌊q⌋ else ⌈q⌉

/-- Rust float remainder `a % b`: truncated division remainder, so the
sign of the result follows the dividend `a`. -/
def rustRem (a b : ℚ) : ℚ :=
  a - b * (ratTrunc (a / b) : ℚ)

/-- one `move_road` tick on the road parent's z offset, translated from
`fn move_road` (src/src/main.rs lines 43-53):
`z -= secs * ROAD_VEL; let div = z % LEN_SEG;
 if z.abs() > 1. && div < 0.01 { z = div + 10. * LEN_SEG }`. -/
def move_road (delta : ℚ) (z : ℚ) : ℚ :=
  let z1 := z - delta * ROAD_VEL
  let div := rustRem z1 LEN_SEG
  if |z1| > 1 ∧ div < 1/100 then div + 10 * LEN_SEG else z1

/-- the four pressed-states read by `decode_move`. -/
structure Keys where
  left : Bool
  right : Bool
  up : Bool
  down : Bool
deriving DecidableEq, Repr

/-- desired (x, z) displacement from the pressed keys, translated from
`fn decode_move` (src/src/main.rs lines 56-73); the sequential overwrites
of the source are kept as shadowing lets. -/
def decode_move (k : Keys) (elapsed : ℚ) : ℚ × ℚ :=
  let x : ℚ := 0
  let x := if k.left then -PLAYER_VEL else x
  let x := if k.right then PLAYER_VEL else x
  let z : ℚ := 0
  let z := if k.up then -PLAYER_VEL else z
  let z := if k.down then PLAYER_VEL else z
  (x * elapsed, z * elapsed)

/-- Rust's `f32::clamp(lo, hi)` for `lo ≤ hi`:
`if v < lo then lo else if v > hi then hi else v`. -/
def rustClamp (v lo hi : ℚ) : ℚ :=
  if v < lo then lo else if v > hi then hi else v

/-- one `move_player` tick on the player position, translated from
`fn move_player` (src/src/main.rs lines 87-102): add the decoded
displacement, then clamp x to `[-x_width/2, x_width/2]` with
`x_width = 3.6` and z to `[0, 5]`. -/
def move_player (delta : ℚ) (k : Keys) (p : Pos) : Pos :=
  let x_width : ℚ := 36/10
  let dxz := decode_move k delta
  let z1 := p.z + dxz.2
  let x1 := p.x + dxz.1
  { x := rustClamp x1 (-(x_width / 2)) (x_width / 2)
    z := rustClamp z1 0 5 }

/-- `Query::single_mut` / `get_single` succeed exactly when the query
matches exactly one entity; `single_mut` panics otherwise. -/
def single? {α : Type} : List α → Option α
  | [a] => some a
  | _ => none

/-- the `move_player` system over the whole player query: `single_mut`
panics (modelled as `none`) unless exactly one Player exists. -/
def move_player_sys (delta : ℚ) (k : Keys) (players : List Pos) :
    Option (List Pos) :=
  match single? players with
  | some p => some [move_player delta k p]
  | none => none

end Fakegame

namespace Fakegame

/-- result of one `move_enemies` tick.  The source iterates the enemy
query, copies each translation into a local `t` (`let mut t =
transform.translation`), integrates and clamps `t.z`, and never writes
`t` back; `stored` is the committed transform list, `computed` the
discarded locals, `diag` records whether the `"no player????"` diagnostic
was printed (once per enemy when the player query is not a singleton). -/
structure EnemiesResult where
  stored : List Pos
  computed : List Pos
  diag : Bool
deriving DecidableEq, Repr

/-- the per-enemy local computation of `fn move_enemies`
(src/src/main.rs lines 104-118): `t.z -= ENEMY_VEL * delta;` then, when
the player query yields exactly one player, `t.z = t.z.min(player_z)`. -/
def enemyLocal (delta : ℚ) (playerZ : Option ℚ) (e : Pos) : Pos :=
  let t := { e with z := e.z - ENEMY_VEL * delta }
  match playerZ with
  | some pz => { t with z := min t.z pz }
  | none => t

/-- one `move_enemies` tick over the enemy and player queries, translated
from `fn move_enemies` (src/src/main.rs lines 104-118).  Each stored
transform is returned unchanged because the source mutates only the local
copy `t`. -/
def move_enemies (delta : ℚ) (players : List Pos) (enemies : List Pos) :
    EnemiesResult :=
  let pz := (single? players).map Pos.z
  { stored := enemies
    computed := enemies.map (enemyLocal delta pz)
    diag := pz.isNone && !enemies.isEmpty }

/-- the `Gun` component (src/src/main.rs lines 75-79): a lazily created
pair of opaque asset handles and the last firing time. -/
structure Gun where
  handles : Option (Nat × Nat)
  last_fired : ℚ
deriving DecidableEq, Repr

/-- one `shoot` tick for a single gun-bearing entity, translated from
`fn shoot` (src/src/main.rs lines 120-158): if
`now - last_fired > PLAYER_GUN_PERIOD` set `last_fired = now`, take the
cached handle pair or create and cache a fresh one, and spawn one Bullet
at the gun's world position; otherwise `continue` (no-op).  The returned
list is the positions of the bullets spawned this tick for this gun. -/
def shoot_one (now : ℚ) (pos : Pos) (g : Gun) : Gun × List Pos :=
  if now - g.last_fired > PLAYER_GUN_PERIOD then
    let g1 := { g with last_fired := now }
    match g1.handles with
    | some _ => (g1, [pos])
    | none => ({ g1 with handles := some (0, 1) }, [pos])
  else
    (g, [])

/-- the collision predicate of `fn move_bullet`'s inner loop: the bullet
crosses the enemy's z plane this tick
(`p.translation.z >= e_z && new_z <= e_z`) and is laterally within
`ENEMY_SIZE / 2` of the enemy. -/
def hitsB (bx bz newz : ℚ) (e : Pos) : Bool :=
  decide (bz ≥ e.z ∧ newz ≤ e.z ∧ |bx - e.x| ≤ ENEMY_SIZE / 2)

/-- result of one `move_bullet` tick on a single bullet: `outMark` is the
out-of-range despawn command, `killed` the index of the despawned enemy
(the loop breaks at the first hit), `bulletDespawn` whether the collision
branch despawned the bullet, `newPos` the bullet's committed position. -/
structure BulletStep where
  outMark : Bool
  killed : Option Nat
  bulletDespawn : Bool
  newPos : Pos
deriving DecidableEq, Repr

/-- one `move_bullet` tick on a single bullet against the enemy query,
translated from `fn move_bullet` (src/src/main.rs lines 174-197): mark
out-of-range when `|z| > 100` (no early exit), compute
`new_z = z - delta * BULLET_VEL`, scan enemies in order and break on the
first hit, then either despawn the bullet (position not committed) or
commit `new_z`. -/
def move_bullet_one (delta : ℚ) (b : Pos) (enemies : List Pos) :
    BulletStep :=
  let outMark := decide (|b.z| > 100)
  let new_z := b.z - delta * BULLET_VEL
  let killed := enemies.findIdx? (hitsB b.x b.z new_z)
  { outMark := outMark
    killed := killed
    bulletDespawn := killed.isSome
    newPos := if killed.isSome then b else { b with z := new_z } }

end Fakegame

namespace Fakegame

/-! Helper lemmas shared by the claim theorems. -/

lemma abs_ite (q : ℚ) : |q| = if 0 ≤ q then q else -q := by
  split
  · exact abs_of_nonneg (by assumption)
  · exact abs_of_neg (lt_of_not_le (by assumption))

lemma rustClamp_mem (v lo hi : ℚ) (h : lo ≤ hi) :
    lo ≤ rustClamp v lo hi ∧ rustClamp v lo hi ≤ hi := by
  unfold rustClamp
  split
  · exact ⟨le_refl lo, h⟩
  · split
    · exact ⟨h, le_refl hi⟩
    · exact ⟨le_of_not_lt (by assumption), le_of_not_lt (by assumption)⟩

lemma single?_eq_some_iff {α : Type} (l : List α) (a : α) :
    single? l = some a ↔ l = [a] := by
  match l with
  | [] => simp [single?]
  | [b] => simp [single?]
  | b :: c :: t => simp [single?]

lemma single?_eq_none_iff {α : Type} (l : List α) :
    single? l = none ↔ l.length ≠ 1 := by
  match l with
  | [] => simp [single?]
  | [b] => simp [single?]
  | b :: c :: t => simp [single?]

lemma ratTrunc_neg (q : ℚ) : ratTrunc (-q) = -ratTrunc q := by
  unfold ratTrunc
  rcases lt_trichotomy q 0 with h | h | h
  · rw [if_neg (not_le.2 h), if_pos (by linarith), Int.floor_neg]
  · subst h
    simp
  · rw [if_pos h.le, if_neg (by simpa using h), Int.ceil_neg]

lemma rustRem_nonneg_of_nonneg (a : ℚ) (ha : 0 ≤ a) : 0 ≤ rustRem a LEN_SEG := by
  have hL : (0:ℚ) < LEN_SEG := by norm_num [LEN_SEG]
  have hq : (0:ℚ) ≤ a / LEN_SEG := div_nonneg ha hL.le
  unfold rustRem ratTrunc
  rw [if_pos hq]
  have h1 : 0 ≤ a / LEN_SEG - (⌊a / LEN_SEG⌋ : ℚ) :=
    sub_nonneg.2 (Int.floor_le (a / LEN_SEG))
  have ha2 : LEN_SEG * (a / LEN_SEG) = a := by
    field_simp
  have h2 := mul_nonneg hL.le h1
  rw [mul_sub, ha2] at h2
  exact h2

lemma rustRem_neg_arg (a : ℚ) : rustRem (-a) LEN_SEG = -rustRem a LEN_SEG := by
  unfold rustRem
  rw [neg_div, ratTrunc_neg]
  push_cast
  ring

lemma shoot_one_fire (now : ℚ) (pos : Pos) (g : Gun)
    (h : now - g.last_fired > PLAYER_GUN_PERIOD) :
    (shoot_one now pos g).2 = [pos] ∧ (shoot_one now pos g).1.last_fired = now := by
  unfold shoot_one
  rw [if_pos h]
  cases g.handles <;> simp

lemma shoot_one_skip (now : ℚ) (pos : Pos) (g : Gun)
    (h : ¬(now - g.last_fired > PLAYER_GUN_PERIOD)) :
    shoot_one now pos g = (g, []) := by
  unfold shoot_one
  rw [if_neg h]

end Fakegame

namespace Fakegame

/-- C1: for every tick and every key combination, after `move_player` runs
the player's position satisfies x ∈ [-1.8, 1.8] and z ∈ [0, 5]: the decoded
displacement is added to the position and then x is clamped to
[-1.8, 1.8] and z to [0, 5]. -/
theorem move_player_in_bounds (delta : ℚ) (k : Keys) (p : Pos) :
    (move_player delta k p).x = rustClamp (p.x + (decode_move k delta).1) (-(9/5)) (9/5) ∧
    (move_player delta k p).z = rustClamp (p.z + (decode_move k delta).2) 0 5 ∧
    -(9/5) ≤ (move_player delta k p).x ∧ (move_player delta k p).x ≤ 9/5 ∧
    0 ≤ (move_player delta k p).z ∧ (move_player delta k p).z ≤ 5 := by
  have hx : (move_player delta k p).x =
      rustClamp (p.x + (decode_move k delta).1) (-(9/5)) (9/5) := by
    simp only [move_player]
    norm_num
  have hz : (move_player delta k p).z =
      rustClamp (p.z + (decode_move k delta).2) 0 5 := by
    simp only [move_player]
  have hbx := rustClamp_mem (p.x + (decode_move k delta).1) (-(9/5)) (9/5) (by norm_num)
  have hbz := rustClamp_mem (p.z + (decode_move k delta).2) 0 5 (by norm_num)
  rw [hx, hz]
  exact ⟨rfl, rfl, hbx.1, hbx.2, hbz.1, hbz.2⟩

/-- C9: `decode_move` resolves opposing inputs by priority: right pressed
gives x-intent +1 overriding left, left alone gives -1, neither gives 0;
symmetrically down overrides up on the z axis (down gives +1, up alone
-1); the returned displacement is intent × PLAYER_VEL × delta per axis. -/
theorem decode_move_table (k : Keys) (delta : ℚ) :
    decode_move k delta =
      (((if k.right then 1 else if k.left then -1 else 0) : ℚ) * PLAYER_VEL * delta,
       ((if k.down then 1 else if k.up then -1 else 0) : ℚ) * PLAYER_VEL * delta) := by
  rcases k with ⟨l, r, u, d⟩
  cases l <;> cases r <;> cases u <;> cases d <;>
    simp [decode_move, PLAYER_VEL]

/-- C4: each tick `move_road` first sets z to z - delta * ROAD_VEL; then,
with rem = z mod LEN_SEG taken with the sign of the dividend (rem is
nonnegative for nonnegative z and flips sign with z), if |z| > 1 and
rem < 0.01 it sets z to rem + 10 * LEN_SEG = rem + 18; otherwise z stays
at the decremented value. -/
theorem move_road_spec (delta z : ℚ) :
    (move_road delta z =
      (let z1 := z - delta * ROAD_VEL
       let rem := rustRem z1 LEN_SEG
       if |z1| > 1 ∧ rem < 1/100 then rem + 18 else z1)) ∧
    (∀ a, 0 ≤ a → 0 ≤ rustRem a LEN_SEG) ∧
    (∀ a, rustRem (-a) LEN_SEG = -rustRem a LEN_SEG) := by
  refine ⟨?_, rustRem_nonneg_of_nonneg, rustRem_neg_arg⟩
  simp only [move_road]
  by_cases h : |z - delta * ROAD_VEL| > 1 ∧ rustRem (z - delta * ROAD_VEL) LEN_SEG < 1/100
  · rw [if_pos h, if_pos h]
    norm_num [LEN_SEG]
  · rw [if_neg h, if_neg h]

/-- C4 witness: the sign clause of `move_road_spec` applied at a = 2. -/
theorem move_road_spec_witness : (0:ℚ) ≤ 2 ∧ 0 ≤ rustRem 2 LEN_SEG :=
  ⟨by norm_num, (move_road_spec 0 0).2.1 2 (by norm_num)⟩

/-- C7 counterexample: `move_road` with delta = 0 is not the identity: at
z = 18/5 = 3.6 the wrap rule still fires (rem = 0 < 0.01 and |z| > 1) and
the road z jumps to 18. -/
theorem move_road_delta0_cex : move_road 0 (18/5) = 18 ∧ (18:ℚ) ≠ 18/5 := by
  constructor
  · norm_num [move_road, rustRem, ratTrunc, LEN_SEG, ROAD_VEL, abs_ite]
  · norm_num

/-- C7 amended: `move_road` with delta = 0 leaves the road z unchanged
whenever the wrap condition does not hold at z (i.e. unless |z| > 1 and
z mod LEN_SEG < 0.01, in which case the wrap fires even with delta 0). -/
theorem move_road_delta0_id (z : ℚ)
    (h : ¬(|z| > 1 ∧ rustRem z LEN_SEG < 1/100)) : move_road 0 z = z := by
  simp only [move_road]
  have e : z - 0 * ROAD_VEL = z := by ring
  rw [e, if_neg h]

/-- C7 witness: `move_road_delta0_id` applied at z = 1/2. -/
theorem move_road_delta0_id_witness :
    ¬(|(1/2 : ℚ)| > 1 ∧ rustRem (1/2) LEN_SEG < 1/100) ∧ move_road 0 (1/2) = 1/2 := by
  have h : ¬(|(1/2 : ℚ)| > 1 ∧ rustRem (1/2) LEN_SEG < 1/100) := by
    rintro ⟨h1, -⟩
    rw [abs_ite] at h1
    norm_num at h1
  exact ⟨h, move_road_delta0_id (1/2) h⟩

/-- C10: `move_enemies` leaves every enemy's stored transform unchanged:
the integrated and clamped z is computed only into the local copy
(`computed`) and is never committed back to the entity's transform, so
the observable enemy position is invariant under `move_enemies`. -/
theorem move_enemies_stored_unchanged (delta : ℚ) (ps es : List Pos) :
    (move_enemies delta ps es).stored = es := rfl

/-- C5 counterexample: with the player at z = 0 and an enemy at z = -5,
`move_enemies` (delta = 0) computes the local enemy z as
min (-5) 0 = -5, which is strictly below the player's z: the clamp
`t.z.min(player_z)` does not keep the enemy's z from going below the
player's z. -/
theorem move_enemies_clamp_cex :
    (move_enemies 0 [⟨0, 0⟩] [⟨0, -5⟩]).computed = [⟨0, -5⟩] ∧ ((-5:ℚ) < 0) := by
  constructor
  · simp [move_enemies, enemyLocal, single?, ENEMY_VEL, min_def]
  · norm_num

/-- C5 amended: for each enemy each tick, with exactly one player,
the EnemyController computes the candidate position z - ENEMY_VEL * delta
and clamps it with min against the player's z, so the computed enemy z
never goes above (past) the player's current z. -/
theorem move_enemies_clamp_min (delta : ℚ) (p : Pos) (es : List Pos)
    (i : Nat) (e : Pos) (he : es[i]? = some e) :
    (move_enemies delta [p] es).computed[i]? =
      some ⟨e.x, min (e.z - ENEMY_VEL * delta) p.z⟩ ∧
    ∀ c ∈ (move_enemies delta [p] es).computed, c.z ≤ p.z := by
  constructor
  · simp [move_enemies, single?, he, enemyLocal]
  · intro c hc
    simp only [move_enemies, single?, Option.map_some, List.mem_map] at hc
    obtain ⟨a, -, rfl⟩ := hc
    simp [enemyLocal]

/-- C5 witness: `move_enemies_clamp_min` applied to a single enemy at
(0, -5) with the player at (0, 0) and delta = 0. -/
theorem move_enemies_clamp_min_witness :
    ([(⟨0, -5⟩ : Pos)][0]? = some ⟨0, -5⟩) ∧
    (move_enemies 0 [⟨0, 0⟩] [⟨0, -5⟩]).computed[0]? =
      some ⟨(0:ℚ), min ((-5:ℚ) - ENEMY_VEL * 0) 0⟩ := by
  have he : ([(⟨0, -5⟩ : Pos)][0]? = some ⟨0, -5⟩) := rfl
  exact ⟨he, (move_enemies_clamp_min 0 ⟨0, 0⟩ [⟨0, -5⟩] 0 ⟨0, -5⟩ he).1⟩

/-- C8: when exactly one Player does not exist, `move_player` fails
fatally (`single_mut` panics, modelled as `none`) while `move_enemies`
is non-fatal: it emits the diagnostic, skips the clamp against the
player's z for that tick (the computed locals are the unclamped
candidates), and continues; when exactly one Player exists, neither
error branch is reached. -/
theorem player_query_error_policy (delta : ℚ) (k : Keys) (ps es : List Pos) :
    (ps.length ≠ 1 →
      move_player_sys delta k ps = none ∧
      (move_enemies delta ps es).computed =
        es.map (fun e => ⟨e.x, e.z - ENEMY_VEL * delta⟩) ∧
      (move_enemies delta ps es).diag = !es.isEmpty) ∧
    (∀ p, ps = [p] →
      move_player_sys delta k ps = some [move_player delta k p] ∧
      (move_enemies delta ps es).diag = false ∧
      (move_enemies delta ps es).computed = es.map (enemyLocal delta (some p.z))) := by
  constructor
  · intro hlen
    have hq : single? ps = none := (single?_eq_none_iff ps).2 hlen
    refine ⟨?_, ?_, ?_⟩
    · simp [move_player_sys, hq]
    · simp [move_enemies, hq, enemyLocal]
    · simp [move_enemies, hq]
  · rintro p rfl
    refine ⟨?_, ?_, ?_⟩
    · simp [move_player_sys, single?]
    · simp [move_enemies, single?]
    · simp [move_enemies, single?]

/-- C8 witness: `player_query_error_policy` applied with an empty player
query (fatal branch) and with a singleton player query (normal branch). -/
theorem player_query_error_policy_witness :
    (([] : List Pos).length ≠ 1 ∧
      move_player_sys 0 ⟨false, false, false, false⟩ [] = none ∧
      (move_enemies 0 ([] : List Pos) [⟨0, -5⟩]).diag = !([(⟨0, -5⟩ : Pos)].isEmpty)) ∧
    (move_player_sys 0 ⟨false, false, false, false⟩ [⟨0, 0⟩] =
      some [move_player 0 ⟨false, false, false, false⟩ ⟨0, 0⟩] ∧
      (move_enemies 0 [(⟨0, 0⟩ : Pos)] [⟨0, -5⟩]).diag = false) := by
  have h0 : ([] : List Pos).length ≠ 1 := by simp
  have h1 := (player_query_error_policy 0 ⟨false, false, false, false⟩ [] [⟨0, -5⟩]).1 h0
  have h2 := (player_query_error_policy 0 ⟨false, false, false, false⟩ [⟨0, 0⟩] [⟨0, -5⟩]).2
    ⟨0, 0⟩ rfl
  exact ⟨⟨h0, h1.1, h1.2.2⟩, h2.1, h2.2.1⟩

/-- C2: per bullet per tick, with new_z = old_z - delta * BULLET_VEL, an
enemy is killed exactly when old_z ≥ enemy_z, new_z ≤ enemy_z and
|bullet.x - enemy.x| ≤ ENEMY_SIZE/2; the scan stops at the first such
enemy (at most one kill per bullet per tick), on a kill both the enemy
and the bullet are marked for despawn and the bullet's position is not
updated; with no match the bullet's z is set to new_z. -/
theorem move_bullet_collision (delta : ℚ) (b : Pos) (es : List Pos) :
    (∀ e, hitsB b.x b.z (b.z - delta * BULLET_VEL) e = true ↔
      (b.z ≥ e.z ∧ b.z - delta * BULLET_VEL ≤ e.z ∧ |b.x - e.x| ≤ ENEMY_SIZE / 2)) ∧
    (∀ i, (move_bullet_one delta b es).killed = some i ↔
      ∃ h : i < es.length,
        hitsB b.x b.z (b.z - delta * BULLET_VEL) (es.get ⟨i, h⟩) = true ∧
        ∀ j, (hj : j < i) →
          hitsB b.x b.z (b.z - delta * BULLET_VEL) (es.get ⟨j, Nat.lt_trans hj h⟩) = false) ∧
    ((move_bullet_one delta b es).killed = none ↔
      ∀ e ∈ es, hitsB b.x b.z (b.z - delta * BULLET_VEL) e = false) ∧
    (∀ i, (move_bullet_one delta b es).killed = some i →
      (move_bullet_one delta b es).bulletDespawn = true ∧
      (move_bullet_one delta b es).newPos = b) ∧
    ((move_bullet_one delta b es).killed = none →
      (move_bullet_one delta b es).bulletDespawn = false ∧
      (move_bullet_one delta b es).newPos = { b with z := b.z - delta * BULLET_VEL }) := by
  have hk : (move_bullet_one delta b es).killed =
      es.findIdx? (hitsB b.x b.z (b.z - delta * BULLET_VEL)) := rfl
  have hd : (move_bullet_one delta b es).bulletDespawn =
      ((move_bullet_one delta b es).killed).isSome := rfl
  have hp : (move_bullet_one delta b es).newPos =
      (if ((move_bullet_one delta b es).killed).isSome then b
       else { b with z := b.z - delta * BULLET_VEL }) := rfl
  refine ⟨?_, ?_, ?_, ?_, ?_⟩
  · intro e
    simp [hitsB]
  · intro i
    rw [hk, List.findIdx?_eq_some_iff_getElem]
    simp only [List.get_eq_getElem, Bool.not_eq_true]
  · rw [hk, List.findIdx?_eq_none_iff]
  · intro i h
    rw [hd, hp, h]
    exact ⟨rfl, rfl⟩
  · intro h
    rw [hd, hp, h]
    exact ⟨rfl, rfl⟩

/-- C2 witness: the spec's collision scenario: bullet at (0.1, 1) with
delta = 1/25 (new_z = -1) against one enemy at (0, 0): lateral offset
0.1 ≤ 0.15, so the enemy at index 0 is killed, the bullet is despawned
and its position is not updated. -/
theorem move_bullet_collision_witness :
    (move_bullet_one (1/25) ⟨1/10, 1⟩ [⟨0, 0⟩]).killed = some 0 ∧
    (move_bullet_one (1/25) ⟨1/10, 1⟩ [⟨0, 0⟩]).bulletDespawn = true ∧
    (move_bullet_one (1/25) ⟨1/10, 1⟩ [⟨0, 0⟩]).newPos = ⟨1/10, 1⟩ := by
  have hkill : (move_bullet_one (1/25) ⟨1/10, 1⟩ [⟨0, 0⟩]).killed = some 0 := by
    norm_num [move_bullet_one, hitsB, BULLET_VEL, ENEMY_SIZE, List.findIdx?, abs_ite]
  have h := (move_bullet_collision (1/25) ⟨1/10, 1⟩ [⟨0, 0⟩]).2.2.2.1 0 hkill
  exact ⟨hkill, h.1, h.2⟩

/-- C6: a bullet whose z satisfies |z| > 100 at the start of its
processing is marked for despawn that tick regardless of the collision
outcome, and the mark does not early-exit: the movement computation and
the enemy collision scan still run on the same bullet in the same tick
(killed and newPos equal the unconditional scan results). -/
theorem move_bullet_out_of_range (delta : ℚ) (b : Pos) (es : List Pos)
    (h : |b.z| > 100) :
    (move_bullet_one delta b es).outMark = true ∧
    (move_bullet_one delta b es).killed =
      es.findIdx? (hitsB b.x b.z (b.z - delta * BULLET_VEL)) ∧
    (move_bullet_one delta b es).newPos =
      (if (es.findIdx? (hitsB b.x b.z (b.z - delta * BULLET_VEL))).isSome then b
       else { b with z := b.z - delta * BULLET_VEL }) := by
  refine ⟨?_, rfl, rfl⟩
  have hm : (move_bullet_one delta b es).outMark = decide (|b.z| > 100) := rfl
  rw [hm, decide_eq_true_eq]
  exact h

/-- C6 witness: `move_bullet_out_of_range` applied to a bullet at
z = 150 with no enemies and delta = 0. -/
theorem move_bullet_out_of_range_witness :
    |(150:ℚ)| > 100 ∧ (move_bullet_one 0 ⟨0, 150⟩ []).outMark = true := by
  have h : |(150:ℚ)| > 100 := by
    rw [abs_ite]
    norm_num
  exact ⟨h, (move_bullet_out_of_range 0 ⟨0, 150⟩ [] h).1⟩

/-- C3: per gun-bearing entity per tick, if now - last_fired >
PLAYER_GUN_PERIOD (strictly) the gun fires exactly one bullet at the
gun's world position and last_fired becomes now; otherwise nothing
happens.  Hence a second attempt ≤ 0.5 s after a firing one yields no
bullet (one bullet total), an attempt > 0.5 s later fires again, and no
tick ever spawns more than one bullet per gun (no catch-up). -/
theorem shoot_cooldown (g : Gun) (pos : Pos) (now d : ℚ)
    (h : now - g.last_fired > PLAYER_GUN_PERIOD) :
    (shoot_one now pos g).2 = [pos] ∧
    (shoot_one now pos g).1.last_fired = now ∧
    (∀ g2 n2, ¬(n2 - g2.last_fired > PLAYER_GUN_PERIOD) → shoot_one n2 pos g2 = (g2, [])) ∧
    (d ≤ PLAYER_GUN_PERIOD → (shoot_one (now + d) pos (shoot_one now pos g).1).2 = []) ∧
    (d > PLAYER_GUN_PERIOD → (shoot_one (now + d) pos (shoot_one now pos g).1).2 = [pos]) ∧
    (∀ g2 n2, ((shoot_one n2 pos g2).2).length ≤ 1) := by
  obtain ⟨hb, hlf⟩ := shoot_one_fire now pos g h
  refine ⟨hb, hlf, fun g2 n2 hn => shoot_one_skip n2 pos g2 hn, ?_, ?_, ?_⟩
  · intro hd
    have hn : ¬(now + d - (shoot_one now pos g).1.last_fired > PLAYER_GUN_PERIOD) := by
      rw [hlf]
      simp only [gt_iff_lt, not_lt]
      linarith
    rw [shoot_one_skip (now + d) pos (shoot_one now pos g).1 hn]
  · intro hd
    have hn : now + d - (shoot_one now pos g).1.last_fired > PLAYER_GUN_PERIOD := by
      rw [hlf]
      simp only [gt_iff_lt]
      linarith
    exact (shoot_one_fire (now + d) pos (shoot_one now pos g).1 hn).1
  · intro g2 n2
    by_cases hf : n2 - g2.last_fired > PLAYER_GUN_PERIOD
    · rw [(shoot_one_fire n2 pos g2 hf).1]
      exact le_refl 1
    · rw [shoot_one_skip n2 pos g2 hf]
      simp

/-- C3 witness: the spec's cooldown scenario with `shoot_cooldown`: the
gun (last_fired = 0) fires at now = 1, a second attempt 0.4 s later is a
no-op, and an attempt 0.6 s after the first firing fires again. -/
theorem shoot_cooldown_witness :
    ((1:ℚ) - (Gun.mk none 0).last_fired > PLAYER_GUN_PERIOD) ∧
    (shoot_one 1 ⟨0, 0⟩ ⟨none, 0⟩).2 = [⟨0, 0⟩] ∧
    (shoot_one (1 + 2/5) ⟨0, 0⟩ (shoot_one 1 ⟨0, 0⟩ ⟨none, 0⟩).1).2 = [] ∧
    (shoot_one (1 + 3/5) ⟨0, 0⟩ (shoot_one 1 ⟨0, 0⟩ ⟨none, 0⟩).1).2 = [⟨0, 0⟩] := by
  have h : (1:ℚ) - (Gun.mk none 0).last_fired > PLAYER_GUN_PERIOD := by
    norm_num [PLAYER_GUN_PERIOD]
  refine ⟨h, (shoot_cooldown ⟨none, 0⟩ ⟨0, 0⟩ 1 (2/5) h).1, ?_, ?_⟩
  · exact (shoot_cooldown ⟨none, 0⟩ ⟨0, 0⟩ 1 (2/5) h).2.2.2.1 (by norm_num [PLAYER_GUN_PERIOD])
  · exact (shoot_cooldown ⟨none, 0⟩ ⟨0, 0⟩ 1 (3/5) h).2.2.2.2.1 (by norm_num [PLAYER_GUN_PERIOD])

end Fakegame
